import Mathlib

/-!
Verification of the lecture-survey dashboard's aggregation core (`src/app.py`).

The embedding follows the source line by line:
* a raw cell is a number, a free-form string, or a missing value;
* `pd.to_numeric(errors="coerce")` maps every cell to `Option ℚ` (`none` is NaN);
* `Series.mean/count/max/min/value_counts` skip `none`;
* the bar-chart data is `value_counts().reindex(range(1, int(max)+1)).sort_index()`,
  whose `reindex` fills unseen ratings with NaN (`none` entries), and whose
  `int(Series.max())` raises `ValueError` on an all-missing column (the whole
  distribution is then `none`);
* the category header shows `int(answer_counts.mean())`, Python `int()` being
  truncation toward zero;
* the run first checks the schema's question columns and stops on any miss.
-/

section SurveyDashboard

attribute [local semireducible] Rat.mul Rat.add Rat.inv Rat.sub

/-- A raw cell of the uploaded CSV table: a number, a free-form string, or a
missing value (what `pd.read_csv` loads as NaN). -/
inductive RawCell where
  | num (q : ℚ)
  | str (s : String)
  | missing
deriving DecidableEq

/-- An input table as loaded by `pd.read_csv`: named columns, each a list of
cells in row order. -/
abbrev Table := List (String × List RawCell)

/-- Numeric value of a run of decimal digit characters. -/
def digitsVal (cs : List Char) : ℕ :=
  cs.foldl (fun n c => 10 * n + (c.toNat - 48)) 0

/-- Strip leading and trailing spaces from a character list. -/
def trimSpaces (cs : List Char) : List Char :=
  ((cs.dropWhile (· == ' ')).reverse.dropWhile (· == ' ')).reverse

/-- Models the string path of `pd.to_numeric(errors="coerce")`: an optional
sign, decimal digits, and an optional fractional part parse to an exact
rational; anything else (empty, free text, malformed) is `none`.
Scientific notation is not modelled. -/
def parseNumeric (s : String) : Option ℚ :=
  let cs := trimSpaces s.toList
  let sb : ℚ × List Char :=
    match cs with
    | '-' :: rest => (-1, rest)
    | '+' :: rest => (1, rest)
    | _ => (1, cs)
  let ir := sb.2.span (fun c => c != '.')
  match ir.2 with
  | [] =>
      if ir.1 ≠ [] ∧ ir.1.all Char.isDigit = true then
        some (sb.1 * (digitsVal ir.1 : ℚ))
      else none
  | _ :: fracPart =>
      if (ir.1 ≠ [] ∨ fracPart ≠ []) ∧ fracPart.all (fun c => c != '.') = true ∧
          ir.1.all Char.isDigit = true ∧ fracPart.all Char.isDigit = true then
        some (sb.1 * ((digitsVal ir.1 : ℚ) + (digitsVal fracPart : ℚ) / (10 ^ fracPart.length : ℚ)))
      else none

/-- Coercion of one cell, as `pd.to_numeric(errors="coerce")` does it: numbers
pass through, strings are parsed, missing stays NaN (`none`). -/
def toNumeric : RawCell → Option ℚ
  | .num q => some q
  | .str s => parseNumeric s
  | .missing => none

/-- Coercion of a whole column (`df[questions].apply(pd.to_numeric, errors="coerce")`). -/
def coerceCol (cells : List RawCell) : List (Option ℚ) :=
  cells.map toNumeric

/-- The non-missing values of a coerced column, in row order (the values every
NaN-skipping pandas reduction works on). -/
def presentVals (col : List (Option ℚ)) : List ℚ :=
  col.filterMap id

/-- Models `Series.count()`: the number of non-missing values. -/
def seriesCount (col : List (Option ℚ)) : ℕ :=
  (presentVals col).length

/-- Sum of the non-missing values (`Series.sum()`). -/
def seriesSum (col : List (Option ℚ)) : ℚ :=
  (presentVals col).sum

/-- Models `Series.mean()`: NaN (`none`) on an all-missing column, otherwise
the arithmetic mean of the non-missing values. -/
def seriesMean (col : List (Option ℚ)) : Option ℚ :=
  if seriesCount col = 0 then none
  else some (seriesSum col / (seriesCount col : ℚ))

/-- Models `Series.max()`: NaN (`none`) on an all-missing column. -/
def seriesMax (col : List (Option ℚ)) : Option ℚ :=
  (presentVals col).max?

/-- Models `Series.min()`. -/
def seriesMin (col : List (Option ℚ)) : Option ℚ :=
  (presentVals col).min?

/-- Models `Series.value_counts()[v]`: the multiplicity of the value `v` among
the non-missing values. -/
def countVal (col : List (Option ℚ)) (v : ℚ) : ℕ :=
  (presentVals col).count v

/-- Python `int()` on a float: truncation toward zero. -/
def ratTrunc (q : ℚ) : ℤ :=
  if 0 ≤ q then q.floor else -((-q).floor)

/-- One entry of the reindexed value-counts series: `none` models the NaN that
`reindex` inserts for a rating that was never observed. -/
def distEntry (col : List (Option ℚ)) (k : ℕ) : Option ℕ :=
  if countVal col (k : ℚ) = 0 then none else some (countVal col (k : ℚ))

/-- Models `value_counts().reindex(range(1, int(max())+1)).sort_index()` for one
label's column. On an all-missing column `Series.max()` is NaN and `int(nan)`
raises `ValueError`; that raise is modelled as `none`. -/
def distribution (col : List (Option ℚ)) : Option (List (ℕ × Option ℕ)) :=
  match seriesMax col with
  | none => none
  | some m => some ((List.range' 1 (ratTrunc m).toNat).map fun k => (k, distEntry col k))

/-- Total of the counts present in a distribution; the NaN entries a `reindex`
introduced contribute nothing (as in `Series.sum()`). -/
def distSum (d : List (ℕ × Option ℕ)) : ℕ :=
  (d.map (fun p => p.2.getD 0)).sum

/-- The category → (label, question text) schema literal of `run_app`. -/
def categories : List (String × List (String × String)) :=
  [("講義全体",
    [("総合満足度", "本日の総合的な満足度を５段階で教えてください。 "),
     ("おすすめ度", "親しいご友人にこの講義の受講をお薦めしますか？")]),
   ("講義内容",
    [("学習量", "本日の講義内容について５段階で教えてください。 \n学習量は適切だった"),
     ("理解度", "本日の講義内容について５段階で教えてください。 \n講義内容が十分に理解できた"),
     ("アナウンス", "本日の講義内容について５段階で教えてください。 \n運営側のアナウンスが適切だった")]),
   ("講師",
    [("総合満足度", "本日の講師の総合的な満足度を５段階で教えてください。"),
     ("時間活用", "本日の講師について５段階で教えてください。\n授業時間を効率的に使っていた"),
     ("質問対応", "本日の講師について５段階で教えてください。\n質問に丁寧に対応してくれた"),
     ("話し方", "本日の講師について５段階で教えてください。\n話し方や声の大きさが適切だった")]),
   ("自分自身",
    [("予習", "ご自身について５段階で教えてください。\n事前に予習をした"),
     ("意欲", "ご自身について５段階で教えてください。\n意欲をもって講義に臨んだ"),
     ("今後の活用", "ご自身について５段階で教えてください。\n今回学んだことを学習や研究に生かせる")])]

/-- Column headers of a table (`df.columns`). -/
def tableColumns (t : Table) : List String :=
  t.map Prod.fst

/-- Every question text referenced by the schema, in schema order. -/
def requiredQuestions : List String :=
  (categories.map (fun c => c.2.map Prod.snd)).flatten

/-- The required-column check of `run_app`:
`[full for qs in categories.values() for _, full in qs if full not in df.columns]`. -/
def missingCols (t : Table) : List String :=
  requiredQuestions.filter (fun q => !((tableColumns t).contains q))

/-- Column selection `df[q]` (column headers of a survey export are unique). -/
def getCol (t : Table) (q : String) : List RawCell :=
  (List.lookup q t).getD []

/-- Per-label display data of one metric card and its bar chart. -/
structure LabelResult where
  label : String
  meanScore : Option ℚ
  answerCount : ℕ
  dist : List (ℕ × Option ℕ)
deriving DecidableEq

/-- The header figure of a category tab, `int(answer_counts.mean())`. -/
def categoryResponseCount (counts : List ℕ) : ℤ :=
  ratTrunc ((counts.map (fun n : ℕ => (n : ℚ))).sum / (counts.length : ℚ))

/-- Everything one category tab displays. -/
structure CategoryResult where
  name : String
  responseCount : ℤ
  labelResults : List LabelResult
deriving DecidableEq

/-- The coerced, relabeled per-category frame:
`category_df = df[questions].apply(pd.to_numeric, errors="coerce")` followed by
`category_df.columns = labels`. -/
def categoryFrame (lq : List (String × String)) (df : Table) : List (String × List (Option ℚ)) :=
  lq.map (fun p => (p.1, coerceCol (getCol df p.2)))

/-- The per-label answer counts `category_df.count()`, in label order. -/
def answerCounts (lq : List (String × String)) (df : Table) : List ℕ :=
  (categoryFrame lq df).map (fun p => seriesCount p.2)

/-- Aggregation of one category tab. `none` models the `ValueError` that the
distribution of an all-missing label column raises. -/
def aggregateCategory (name : String) (lq : List (String × String)) (df : Table) :
    Option CategoryResult :=
  let frame := categoryFrame lq df
  match frame.mapM (fun p => distribution p.2) with
  | none => none
  | some ds =>
      some { name := name
             responseCount := categoryResponseCount (answerCounts lq df)
             labelResults :=
               (frame.zip ds).map (fun p =>
                 { label := p.1.1
                   meanScore := seriesMean p.1.2
                   answerCount := seriesCount p.1.2
                   dist := p.2 }) }

/-- What a dashboard run can raise after the CSV is loaded. -/
inductive RunError where
  | missingColumns (cols : List String)
  | valueError
deriving DecidableEq

/-- Decidable equality of run outcomes. -/
instance decEqExcept {ε α : Type} [DecidableEq ε] [DecidableEq α] :
    DecidableEq (Except ε α) := fun x y =>
  match x, y with
  | .error a, .error b =>
      if h : a = b then .isTrue (by rw [h])
      else .isFalse (by intro he; cases he; exact h rfl)
  | .ok a, .ok b =>
      if h : a = b then .isTrue (by rw [h])
      else .isFalse (by intro he; cases he; exact h rfl)
  | .error _, .ok _ => .isFalse (by intro he; cases he)
  | .ok _, .error _ => .isFalse (by intro he; cases he)

/-- The per-category loop of `run_app`, threading the dataframe to record that
no iteration writes back to it; an uncaught `ValueError` aborts the remaining
iterations. -/
def runCategoriesSt :
    List (String × List (String × String)) → Table → Option (List CategoryResult) × Table
  | [], df => (some [], df)
  | c :: cs, df =>
      match aggregateCategory c.1 c.2 df with
      | none => (none, df)
      | some r =>
          match runCategoriesSt cs df with
          | (none, df2) => (none, df2)
          | (some rs, df2) => (some (r :: rs), df2)

/-- The core of one `run_app` invocation once a table is loaded: the
missing-column validation, then the per-category aggregation loop. The final
table state is returned alongside the outcome. -/
def runAppSt (df : Table) : Except RunError (List CategoryResult) × Table :=
  if missingCols df = [] then
    match runCategoriesSt categories df with
    | (none, df2) => (.error .valueError, df2)
    | (some rs, df2) => (.ok rs, df2)
  else (.error (.missingColumns (missingCols df)), df)

/-- The outcome of one run: the four Category Results, or the error it stopped at. -/
def runApp (df : Table) : Except RunError (List CategoryResult) :=
  (runAppSt df).1



/-- The two columns of E2E scenario A (spec section 8) under the real question
headers of the first schema category. -/
def qA : String := "本日の総合的な満足度を５段階で教えてください。 "

/-- The question header of the first category's second label. -/
def qB : String := "親しいご友人にこの講義の受講をお薦めしますか？"

/-- Scenario A's table: column A is `[5, 4, 5, "", 3]`, column B `[5, 5, 4, 4, 4]`. -/
def tableA : Table :=
  [(qA, [.num 5, .num 4, .num 5, .str "", .num 3]),
   (qB, [.num 5, .num 5, .num 4, .num 4, .num 4])]

/-- Scenario B's table: every required column except `qB`, with no rows. -/
def tableB : Table :=
  (requiredQuestions.filter (fun q => q != qB)).map (fun q => (q, []))

/-- A table with every required column present in which the first question's
column holds only free-text answers. -/
def tableC : Table :=
  requiredQuestions.map (fun q =>
    if q = qA then (q, [RawCell.str "とても良い", RawCell.str "満足"])
    else (q, [RawCell.num 5, RawCell.num 4]))

/-- A one-label category and a one-row table used as witness input. -/
def lqW : List (String × String) := [("W", "qw")]

/-- The witness table for `lqW`. -/
def dfW : Table := [("qw", [RawCell.num 4])]

/-- The Category Result `lqW`/`dfW` aggregates to. -/
def rW : CategoryResult :=
  { name := "W", responseCount := 1,
    labelResults := [{ label := "W", meanScore := some 4, answerCount := 1,
                       dist := [(1, none), (2, none), (3, none), (4, some 1)] }] }

/-- Bridge between the Batteries rational floor and the Mathlib floor. -/
theorem ratFloor_eq_intFloor (q : ℚ) : q.floor = ⌊q⌋ :=
  (Rat.floor_def' q).trans Rat.floor_def.symm

/-- On nonnegative rationals, Python truncation toward zero is the floor. -/
theorem ratTrunc_of_nonneg {q : ℚ} (h : 0 ≤ q) : ratTrunc q = ⌊q⌋ := by
  rw [ratTrunc, if_pos h, ratFloor_eq_intFloor]

/-- The seed of a max fold is a lower bound of the result. -/
theorem le_foldl_max (a : ℚ) (l : List ℚ) : a ≤ l.foldl max a := by
  induction l generalizing a with
  | nil => exact le_refl a
  | cons b t ih => exact le_trans (le_max_left a b) (ih (max a b))

/-- Every list member is bounded by the max fold over the list. -/
theorem mem_le_foldl_max (a : ℚ) (l : List ℚ) : ∀ x ∈ l, x ≤ l.foldl max a := by
  induction l generalizing a with
  | nil => intro x hx; cases hx
  | cons b t ih =>
      intro x hx
      simp only [List.foldl_cons]
      rcases List.mem_cons.mp hx with rfl | hx
      · exact le_trans (le_max_right a x) (le_foldl_max (max a x) t)
      · exact ih (max a b) x hx

/-- A max fold lands on its seed or on a list member. -/
theorem foldl_max_mem (a : ℚ) (l : List ℚ) : l.foldl max a ∈ a :: l := by
  induction l generalizing a with
  | nil => simp [List.foldl_nil]
  | cons b t ih =>
      simp only [List.foldl_cons]
      rcases List.mem_cons.mp (ih (max a b)) with heq | hmem
      · rcases max_choice a b with hab | hab
        · rw [heq, hab]; exact List.mem_cons_self _ _
        · rw [heq, hab]; exact List.mem_cons_of_mem _ (List.mem_cons_self _ _)
      · exact List.mem_cons_of_mem _ (List.mem_cons_of_mem _ hmem)

/-- Specification of `List.max?` on a nonempty list of rationals. -/
theorem max?_spec (l : List ℚ) (h : l ≠ []) :
    ∃ M, l.max? = some M ∧ M ∈ l ∧ ∀ x ∈ l, x ≤ M := by
  cases l with
  | nil => exact absurd rfl h
  | cons a t =>
      refine ⟨t.foldl max a, rfl, foldl_max_mem a t, ?_⟩
      intro x hx
      rcases List.mem_cons.mp hx with rfl | hx
      · exact le_foldl_max x t
      · exact mem_le_foldl_max a t x hx

/-- The seed of a min fold is an upper bound of the result. -/
theorem foldl_min_le (a : ℚ) (l : List ℚ) : l.foldl min a ≤ a := by
  induction l generalizing a with
  | nil => exact le_refl a
  | cons b t ih => exact le_trans (ih (min a b)) (min_le_left a b)

/-- The min fold is below every list member. -/
theorem foldl_min_le_mem (a : ℚ) (l : List ℚ) : ∀ x ∈ l, l.foldl min a ≤ x := by
  induction l generalizing a with
  | nil => intro x hx; cases hx
  | cons b t ih =>
      intro x hx
      simp only [List.foldl_cons]
      rcases List.mem_cons.mp hx with rfl | hx
      · exact le_trans (foldl_min_le (min a x) t) (min_le_right a x)
      · exact ih (min a b) x hx

/-- A min fold lands on its seed or on a list member. -/
theorem foldl_min_mem (a : ℚ) (l : List ℚ) : l.foldl min a ∈ a :: l := by
  induction l generalizing a with
  | nil => simp [List.foldl_nil]
  | cons b t ih =>
      simp only [List.foldl_cons]
      rcases List.mem_cons.mp (ih (min a b)) with heq | hmem
      · rcases min_choice a b with hab | hab
        · rw [heq, hab]; exact List.mem_cons_self _ _
        · rw [heq, hab]; exact List.mem_cons_of_mem _ (List.mem_cons_self _ _)
      · exact List.mem_cons_of_mem _ (List.mem_cons_of_mem _ hmem)

/-- Specification of `List.min?` on a nonempty list of rationals. -/
theorem min?_spec (l : List ℚ) (h : l ≠ []) :
    ∃ m, l.min? = some m ∧ m ∈ l ∧ ∀ x ∈ l, m ≤ x := by
  cases l with
  | nil => exact absurd rfl h
  | cons a t =>
      refine ⟨t.foldl min a, rfl, foldl_min_mem a t, ?_⟩
      intro x hx
      rcases List.mem_cons.mp hx with rfl | hx
      · exact foldl_min_le x t
      · exact foldl_min_le_mem a t x hx

/-- Pointwise sums of naturals over a list split into two sums. -/
theorem sum_map_add {α : Type} (f g : α → ℕ) (l : List α) :
    (l.map (fun x => f x + g x)).sum = (l.map f).sum + (l.map g).sum := by
  induction l with
  | nil => rfl
  | cons a t ih =>
      simp only [List.map_cons, List.sum_cons, ih]
      omega

/-- An indicator sum over keys that all differ from the probed value vanishes. -/
theorem sum_map_indicator_zero (keys : List ℕ) (v : ℚ) (h : ∀ k ∈ keys, v ≠ (k : ℚ)) :
    (keys.map (fun k : ℕ => if v = (k : ℚ) then 1 else 0)).sum = 0 := by
  induction keys with
  | nil => rfl
  | cons b t ih =>
      simp only [List.map_cons, List.sum_cons]
      rw [if_neg (h b (List.mem_cons_self b t)), ih (fun k hk => h k (List.mem_cons_of_mem b hk))]

/-- Over duplicate-free keys containing `k0`, the indicator of `k0` sums to one. -/
theorem sum_map_indicator_one (keys : List ℕ) (hnd : keys.Nodup) (k0 : ℕ) (hk : k0 ∈ keys) :
    (keys.map (fun k : ℕ => if (k0 : ℚ) = (k : ℚ) then 1 else 0)).sum = 1 := by
  induction keys with
  | nil => cases hk
  | cons b t ih =>
      obtain ⟨hbt, hndt⟩ := List.nodup_cons.mp hnd
      simp only [List.map_cons, List.sum_cons]
      rcases List.mem_cons.mp hk with rfl | hmem
      · rw [if_pos rfl, sum_map_indicator_zero t (k0 : ℚ) ?_]
        · intro k hk hcast
          have : k0 = k := by exact_mod_cast hcast
          exact hbt (this ▸ hk)
      · have hb : (k0 : ℚ) ≠ (b : ℚ) := by
          intro hcast
          have : k0 = b := by exact_mod_cast hcast
          exact hbt (this ▸ hmem)
        rw [if_neg hb, ih hndt hmem]

/-- When every value of `l` is one of the (duplicate-free) keys, the per-key
occurrence counts sum to the length of `l`. -/
theorem sum_map_count_of_cover (keys : List ℕ) (l : List ℚ) (hnd : keys.Nodup)
    (hcov : ∀ v ∈ l, ∃ k ∈ keys, v = (k : ℚ)) :
    (keys.map (fun k => l.count ((k : ℕ) : ℚ))).sum = l.length := by
  induction l with
  | nil => simp
  | cons a t ih =>
      have hcovt : ∀ v ∈ t, ∃ k ∈ keys, v = (k : ℚ) :=
        fun v hv => hcov v (List.mem_cons_of_mem a hv)
      obtain ⟨k0, hk0, rfl⟩ := hcov a (List.mem_cons_self a t)
      have hstep : ∀ k : ℕ,
          ((k0 : ℚ) :: t).count ((k : ℕ) : ℚ) =
            t.count ((k : ℕ) : ℚ) + if (k0 : ℚ) = (k : ℚ) then 1 else 0 := by
        intro k
        rw [List.count_cons]
        congr 1
        simp [beq_iff_eq]
      simp only [hstep]
      rw [sum_map_add, ih hcovt, sum_map_indicator_one keys hnd k0 hk0, List.length_cons]

/-- The per-category loop never writes back to the dataframe. -/
theorem runCategoriesSt_table (cs : List (String × List (String × String))) (df : Table) :
    (runCategoriesSt cs df).2 = df := by
  induction cs with
  | nil => rfl
  | cons c cs ih =>
      rcases hrec : runCategoriesSt cs df with ⟨o, df2⟩
      have hdf : df2 = df := by
        have h := ih
        rw [hrec] at h
        exact h
      cases hagg : aggregateCategory c.1 c.2 df <;>
        cases o <;> simp [runCategoriesSt, hagg, hrec, hdf]

/-- A whole run never writes back to the dataframe. -/
theorem runAppSt_table (t : Table) : (runAppSt t).2 = t := by
  by_cases h : missingCols t = []
  · rcases hrec : runCategoriesSt categories t with ⟨o, df2⟩
    have hdf : df2 = t := by
      have hh := runCategoriesSt_table categories t
      rw [hrec] at hh
      exact hh
    cases o <;> simp [runAppSt, h, hrec, hdf]
  · simp [runAppSt, h]

/-- C5: for every table, the validation list contains a column name exactly when
it is a question text referenced by the schema that is absent from the table's
columns — so a table missing a non-empty subset S of required columns yields
exactly S (all categories are checked, never a strict subset), in schema order. -/
theorem C5_validation_complete (t : Table) (q : String) :
    q ∈ missingCols t ↔ q ∈ requiredQuestions ∧ q ∉ tableColumns t := by
  simp [missingCols, List.mem_filter]

/-- C6: when at least one required column is missing, the run halts at
validation with the full missing list and produces no Category Result for any
category. -/
theorem C6_missing_columns_halt (t : Table) (h : missingCols t ≠ []) :
    runApp t = .error (.missingColumns (missingCols t)) := by
  simp only [runApp, runAppSt, if_neg h]

/-- Witness for C6 at scenario B's table, which lacks exactly the second
question column of the first category. -/
theorem C6_missing_columns_halt_witness :
    missingCols tableB ≠ [] ∧
      runApp tableB = .error (.missingColumns (missingCols tableB)) :=
  ⟨by decide, C6_missing_columns_halt tableB (by decide)⟩

/-- C9: aggregation is deterministic and stateless — running the aggregation a
second time, on the table state left behind by the first run, produces exactly
the first run's outcome, and again leaves the table unchanged. -/
theorem C9_deterministic_idempotent (t : Table) :
    runApp ((runAppSt t).2) = runApp t ∧ (runAppSt ((runAppSt t).2)).2 = (runAppSt t).2 := by
  constructor
  · rw [runAppSt_table t]
  · rw [runAppSt_table t]
    exact runAppSt_table t

/-- C10: a full run leaves the input table unchanged — same columns, same rows
in the same order, same raw cell values — because coercion and relabeling act
on a projected copy of each category's columns. -/
theorem C10_table_unchanged (t : Table) :
    (runAppSt t).2 = t ∧ tableColumns ((runAppSt t).2) = tableColumns t ∧
      ∀ q, getCol ((runAppSt t).2) q = getCol t q := by
  have h := runAppSt_table t
  exact ⟨h, by rw [h], fun q => by rw [h]⟩

/-- C1 (code-bug evidence): a label column with zero non-missing numeric values
does yield `answer_count = 0` and a NaN mean, but its bar-chart distribution is
not an empty mapping: `int(Series.max())` is `int(nan)` and raises `ValueError`
(modelled as `none`), so the run crashes instead of staying exception-free. -/
theorem C1_zero_answer_crash :
    seriesCount (coerceCol [RawCell.str "very good", RawCell.str "", RawCell.missing]) = 0 ∧
    seriesMean (coerceCol [RawCell.str "very good", RawCell.str "", RawCell.missing]) = none ∧
    distribution (coerceCol [RawCell.str "very good", RawCell.str "", RawCell.missing]) = none := by
  decide

/-- C7 (code-bug evidence): an unparsable cell becomes "no answer" — it changes
neither the mean, the count, nor the distribution of its column — yet coercion
failures are not always harmless: on `tableC`, whose first question column
holds only free text, the run aborts with a `ValueError` instead of degrading
gracefully. -/
theorem C7_coercion_failure :
    toNumeric (RawCell.str "free text") = none ∧
    seriesMean (coerceCol [RawCell.num 4, RawCell.str "free text", RawCell.num 5]) =
      seriesMean (coerceCol [RawCell.num 4, RawCell.num 5]) ∧
    seriesCount (coerceCol [RawCell.num 4, RawCell.str "free text", RawCell.num 5]) =
      seriesCount (coerceCol [RawCell.num 4, RawCell.num 5]) ∧
    distribution (coerceCol [RawCell.num 4, RawCell.str "free text", RawCell.num 5]) =
      distribution (coerceCol [RawCell.num 4, RawCell.num 5]) ∧
    runApp tableC = .error RunError.valueError := by
  decide

/-- C2 (counterexample): for the observed values 5, 5, 3 the computed
distribution does carry the keys 1..5, but the unseen rating 1 is mapped to a
missing NaN entry, not to the count 0 that the claim asserts. -/
theorem C2_counterexample :
    distribution (coerceCol [RawCell.num 5, RawCell.num 5, RawCell.num 3]) =
      some [(1, none), (2, none), (3, some 1), (4, none), (5, some 2)] ∧
    ¬ ((1, some 0) ∈ [(1, (none : Option ℕ)), (2, none), (3, some 1), (4, none), (5, some 2)]) := by
  decide

/-- C2 (amended): for every label column with at least one non-missing value,
the distribution exists and is an ordered mapping whose keys are exactly the
integers 1 through `int(max observed)`, and whose entry at a rating observed
zero times is the missing value NaN (an absent bar), not the count 0. -/
theorem C2_distribution_keys (col : List (Option ℚ)) (m : ℚ) (h : seriesMax col = some m) :
    ∃ d, distribution col = some d ∧
      d.map Prod.fst = List.range' 1 (ratTrunc m).toNat ∧
      ∀ p ∈ d, p.2 = if countVal col ((p.1 : ℕ) : ℚ) = 0 then none
                     else some (countVal col ((p.1 : ℕ) : ℚ)) := by
  refine ⟨(List.range' 1 (ratTrunc m).toNat).map (fun k => (k, distEntry col k)), ?_, ?_, ?_⟩
  · unfold distribution
    rw [h]
  · rw [List.map_map]
    exact List.map_id _
  · intro p hp
    simp only [List.mem_map] at hp
    obtain ⟨k, _, rfl⟩ := hp
    rfl

/-- Witness for C2's amended statement on the column `[5, 3, 5]`. -/
theorem C2_distribution_keys_witness :
    seriesMax ([some 5, some 3, some 5] : List (Option ℚ)) = some 5 ∧
    ∃ d, distribution ([some 5, some 3, some 5] : List (Option ℚ)) = some d ∧
      d.map Prod.fst = List.range' 1 (ratTrunc 5).toNat ∧
      ∀ p ∈ d, p.2 = if countVal ([some 5, some 3, some 5] : List (Option ℚ)) ((p.1 : ℕ) : ℚ) = 0
                     then none
                     else some (countVal ([some 5, some 3, some 5] : List (Option ℚ)) ((p.1 : ℕ) : ℚ)) :=
  ⟨by decide, C2_distribution_keys ([some 5, some 3, some 5] : List (Option ℚ)) 5 (by decide)⟩

/-- C3 (counterexample): on scenario A's table the per-label answer counts are
4 and 5, and the displayed category response count is `int(4.5) = 4`, not the
round-half-up value 5 the claim asserts. -/
theorem C3_counterexample :
    ((aggregateCategory "講義全体" ((categories.headD ("", [])).2) tableA).map
        (fun r => r.responseCount)) = some 4 ∧ ¬ ((4 : ℤ) = 5) := by
  decide

/-- C3 (amended): whenever a category aggregates without raising, its displayed
response count is the mean of the per-label answer counts truncated toward zero
by Python `int()`, i.e. the floor of that (nonnegative) mean — so 4.5 displays
as 4, not 5. -/
theorem C3_response_count_floor (name : String) (lq : List (String × String)) (df : Table)
    (r : CategoryResult) (h : aggregateCategory name lq df = some r) :
    r.responseCount =
      ⌊((answerCounts lq df).map (fun n : ℕ => (n : ℚ))).sum / ((answerCounts lq df).length : ℚ)⌋ := by
  have hr : r.responseCount = categoryResponseCount (answerCounts lq df) := by
    simp only [aggregateCategory] at h
    split at h
    · exact Option.noConfusion h
    · cases h
      rfl
  have hnn : (0 : ℚ) ≤ ((answerCounts lq df).map (fun n : ℕ => (n : ℚ))).sum /
      ((answerCounts lq df).length : ℚ) := by
    apply div_nonneg
    · apply List.sum_nonneg
      intro x hx
      simp only [List.mem_map] at hx
      obtain ⟨n, _, rfl⟩ := hx
      exact Nat.cast_nonneg n
    · exact Nat.cast_nonneg _
  rw [hr, categoryResponseCount, ratTrunc_of_nonneg hnn]

/-- Witness for C3's amended statement on a one-label category. -/
theorem C3_response_count_floor_witness :
    aggregateCategory "W" lqW dfW = some rW ∧
    rW.responseCount =
      ⌊((answerCounts lqW dfW).map (fun n : ℕ => (n : ℚ))).sum / ((answerCounts lqW dfW).length : ℚ)⌋ :=
  ⟨by decide, C3_response_count_floor "W" lqW dfW rW (by decide)⟩

/-- C4 (counterexample): the column with coerced values 0 and 5 has
`answer_count = 2`, but its distribution (keys 1..5) holds a single count, so
the distribution's total is 1 ≠ 2: a value below 1 is silently dropped by the
`reindex` and the claim fails as stated. -/
theorem C4_counterexample :
    seriesCount (coerceCol [RawCell.num 0, RawCell.num 5]) = 2 ∧
    (distribution (coerceCol [RawCell.num 0, RawCell.num 5])).map distSum = some 1 ∧
    ¬ ((2 : ℕ) = 1) := by
  decide

/-- C4 (amended): for every label column with at least one non-missing value
all of whose non-missing coerced values are integer ratings ≥ 1, the
distribution exists and the sum of its present counts equals `answer_count`. -/
theorem C4_count_conservation (col : List (Option ℚ)) (h1 : 0 < seriesCount col)
    (h2 : ∀ v ∈ presentVals col, ∃ k : ℕ, 1 ≤ k ∧ v = (k : ℚ)) :
    ∃ d, distribution col = some d ∧ distSum d = seriesCount col := by
  have hne : presentVals col ≠ [] := by
    intro he
    rw [seriesCount, he] at h1
    simp at h1
  obtain ⟨M, hM, hMmem, hub⟩ := max?_spec (presentVals col) hne
  obtain ⟨K, hK1, hKeq⟩ := h2 M hMmem
  have hmax : seriesMax col = some M := hM
  have htr : ratTrunc M = (K : ℤ) := by
    rw [hKeq, ratTrunc_of_nonneg (Nat.cast_nonneg K)]
    exact_mod_cast Int.floor_natCast K
  have hd : distribution col =
      some ((List.range' 1 (ratTrunc M).toNat).map fun k => (k, distEntry col k)) := by
    simp only [distribution, hmax]
  refine ⟨_, hd, ?_⟩
  rw [distSum, List.map_map, htr, Int.toNat_natCast]
  have hgetD : ((fun p : ℕ × Option ℕ => p.2.getD 0) ∘ fun k : ℕ => (k, distEntry col k)) =
      fun k : ℕ => (presentVals col).count ((k : ℕ) : ℚ) := by
    funext k
    simp only [Function.comp_apply, distEntry]
    by_cases hc : countVal col (k : ℚ) = 0
    · rw [if_pos hc]
      exact hc.symm
    · rw [if_neg hc]
      rfl
  rw [hgetD]
  refine sum_map_count_of_cover (List.range' 1 K) (presentVals col) (List.nodup_range' 1 K) ?_
  intro v hv
  obtain ⟨k, hk1, rfl⟩ := h2 v hv
  refine ⟨k, ?_, rfl⟩
  have hle : (k : ℚ) ≤ (K : ℚ) := by
    rw [← hKeq]
    exact hub _ hv
  have hkK : k ≤ K := by exact_mod_cast hle
  exact List.mem_range'_1.mpr ⟨hk1, by omega⟩

/-- Witness for C4's amended statement on the column `[1]`. -/
theorem C4_count_conservation_witness :
    0 < seriesCount ([some 1] : List (Option ℚ)) ∧
    (∀ v ∈ presentVals ([some 1] : List (Option ℚ)), ∃ k : ℕ, 1 ≤ k ∧ v = (k : ℚ)) ∧
    ∃ d, distribution ([some 1] : List (Option ℚ)) = some d ∧
      distSum d = seriesCount ([some 1] : List (Option ℚ)) :=
  ⟨by decide, fun v hv => ⟨1, le_refl 1, by simpa [presentVals] using hv⟩,
    C4_count_conservation ([some 1] : List (Option ℚ)) (by decide)
      (fun v hv => ⟨1, le_refl 1, by simpa [presentVals] using hv⟩)⟩

/-- C8: for every label column with a positive answer count, the minimum,
maximum and mean over the non-missing values all exist and the mean lies
between the minimum and the maximum observed rating. -/
theorem C8_mean_bounds (col : List (Option ℚ)) (h : 0 < seriesCount col) :
    ∃ m M μ, seriesMin col = some m ∧ seriesMax col = some M ∧
      seriesMean col = some μ ∧ m ≤ μ ∧ μ ≤ M := by
  have hne : presentVals col ≠ [] := by
    intro he
    rw [seriesCount, he] at h
    simp at h
  obtain ⟨M, hM, _, hub⟩ := max?_spec (presentVals col) hne
  obtain ⟨m, hm, _, hlb⟩ := min?_spec (presentVals col) hne
  have hpos : (0 : ℚ) < (seriesCount col : ℚ) := by exact_mod_cast h
  refine ⟨m, M, seriesSum col / (seriesCount col : ℚ), hm, hM, ?_, ?_, ?_⟩
  · rw [seriesMean, if_neg (Nat.pos_iff_ne_zero.mp h)]
  · rw [le_div_iff₀ hpos]
    have hs := List.card_nsmul_le_sum (presentVals col) m hlb
    rw [nsmul_eq_mul] at hs
    calc m * (seriesCount col : ℚ) = (seriesCount col : ℚ) * m := mul_comm _ _
      _ ≤ seriesSum col := hs
  · rw [div_le_iff₀ hpos]
    have hs := List.sum_le_card_nsmul (presentVals col) M hub
    rw [nsmul_eq_mul] at hs
    calc seriesSum col ≤ (seriesCount col : ℚ) * M := hs
      _ = M * (seriesCount col : ℚ) := mul_comm _ _

/-- Witness for C8 on the column `[2, NaN, 5]`: min 2, max 5, mean 7/2. -/
theorem C8_mean_bounds_witness :
    0 < seriesCount ([some 2, none, some 5] : List (Option ℚ)) ∧
    ∃ m M μ, seriesMin ([some 2, none, some 5] : List (Option ℚ)) = some m ∧
      seriesMax ([some 2, none, some 5] : List (Option ℚ)) = some M ∧
      seriesMean ([some 2, none, some 5] : List (Option ℚ)) = some μ ∧ m ≤ μ ∧ μ ≤ M :=
  ⟨by decide, C8_mean_bounds ([some 2, none, some 5] : List (Option ℚ)) (by decide)⟩

end SurveyDashboard
